import Mathlib

/-!
Verification of the render-cache and change-notification core of a markdown
notes web server (`src/main.py`).

The embedding models:
* the global mutable state (`html_cache` dict, `modified_files` set,
  `css_content`, `config["pandoc_flags"]`) as a `ServerState` record;
* the filesystem / clock / subprocess environment as an `Env` record of
  pure oracles (`os.path.getmtime`, `os.path.exists`, pandoc success, ...);
* the watcher callbacks (`on_modified`, `on_deleted`), the render path
  (`convert_md_to_html`), the notification endpoint (`check_modified`),
  the css loader (`load_css_content`), the flag parser
  (`parse_env_pandoc_flags`, with a faithful model of `shlex.split`), and
  the pure HTML injection transform of `inject_css_and_refresh`.

String manipulation is modelled on `List Char` so that everything is
executable and kernel-reducible.
-/

namespace NoteGlance

/-! ### Character-list string primitives (models of Python `str` operations) -/

/-- Model of `str.startswith`: `listStartsWith s pat` tells whether `s`
starts with `pat`. -/
def listStartsWith : List Char → List Char → Bool
  | _, [] => true
  | [], _ :: _ => false
  | a :: s, b :: p => a = b && listStartsWith s p

/-- Model of Python's `pat in s`: `listOccurs s pat` tells whether `pat`
occurs as a contiguous substring of `s`. -/
def listOccurs : List Char → List Char → Bool
  | [], pat => listStartsWith [] pat
  | s@(_ :: t), pat => listStartsWith s pat || listOccurs t pat

/-- Model of Python `str.replace`: `listReplace s pat rep` replaces every
(left-to-right, non-overlapping) occurrence of `pat` in `s` by `rep`. -/
def listReplace (s pat rep : List Char) : List Char :=
  match s with
  | [] => []
  | a :: t =>
    if listStartsWith (a :: t) pat then
      rep ++ listReplace (List.drop (pat.length - 1) t) pat rep
    else
      a :: listReplace t pat rep
termination_by s.length
decreasing_by
  · simp only [List.length_cons]
    have := List.length_drop (pat.length - 1) t
    omega
  · simp

/-- Python `pat in s` on strings. -/
def pyContains (s pat : String) : Bool := listOccurs s.data pat.data

/-- Python `s.replace(pat, rep)` on strings. -/
def pyReplace (s pat rep : String) : String := ⟨listReplace s.data pat.data rep.data⟩

/-- Python `s.endswith(suf)`. -/
def strEndsWith (s suf : String) : Bool :=
  Nat.ble suf.data.length s.data.length &&
    listStartsWith (s.data.drop (s.data.length - suf.data.length)) suf.data

/-! ### Path functions (models of `os.path`) -/

def chSlash : Char := '/'
def chDot : Char := '.'

/-- Split a character list on `/`. -/
def splitSlash : List Char → List (List Char)
  | [] => [[]]
  | c :: t =>
    let r := splitSlash t
    if c = chSlash then [] :: r
    else
      match r with
      | [] => [[c]]
      | h :: t' => (c :: h) :: t'

/-- The `/`-separated components of a path. -/
def pathComps (p : String) : List (List Char) := splitSlash p.data

/-- Model of `os.path.basename`: the part after the last slash. -/
def basename (p : String) : String := ⟨(pathComps p).getLastD []⟩

/-- Normalization pass of `os.path.normpath` on an absolute POSIX path:
drop empty and `.` components, resolve `..` against the previous
component. -/
def normComps (cs : List (List Char)) : List (List Char) :=
  cs.foldl
    (fun acc c =>
      if c = [] ∨ c = [chDot] then acc
      else if c = [chDot, chDot] then acc.dropLast
      else acc ++ [c])
    []

/-- Join components with `/`. -/
def joinSlash : List (List Char) → List Char
  | [] => []
  | [c] => c
  | c :: cs => c ++ chSlash :: joinSlash cs

/-- Model of `os.path.abspath` for the absolute POSIX paths this server deals in
(`notes_dir` is made absolute at startup, watchdog reports absolute
paths): normalize to a single unambiguous form. -/
def abspath (p : String) : String :=
  ⟨chSlash :: joinSlash (normComps (pathComps p))⟩

/-- Model of `os.path.join(a, b)` for the shapes used here (second argument joined
onto an absolute first argument; an absolute second argument wins). -/
def pathJoin (a b : String) : String :=
  if b.data.head? = some chSlash then b else a ++ "/" ++ b

/-! ### Dict and set operations (Python `dict` / `set`) -/

/-- Dict lookup `d[k]`, returning `none` on a missing key. -/
def dictGet {α : Type} (k : String) : List (String × α) → Option α
  | [] => none
  | (k', v) :: d => if k' = k then some v else dictGet k d

/-- Dict deletion `del d[k]`. -/
def dictDel {α : Type} (k : String) : List (String × α) → List (String × α)
  | [] => []
  | (k', v) :: d => if k' = k then dictDel k d else (k', v) :: dictDel k d

/-- Dict assignment `d[k] = v` (replace in place if present, else append). -/
def dictSet {α : Type} (k : String) (v : α) : List (String × α) → List (String × α)
  | [] => [(k, v)]
  | (k', v') :: d => if k' = k then (k, v) :: d else (k', v') :: dictSet k v d

/-- Set membership `x in s` for the `modified_files` set. -/
def setContains (x : String) : List String → Bool
  | [] => false
  | a :: t => if a = x then true else setContains x t

/-- Set insertion `s.add(x)`. -/
def setAdd (x : String) (l : List String) : List String :=
  if setContains x l then l else l ++ [x]

/-- Set removal `s.remove(x)` (the model removes every copy; the set never holds
duplicates). -/
def setRemove (x : String) : List String → List String
  | [] => []
  | a :: t => if a = x then setRemove x t else a :: setRemove x t

/-! ### The data model

`Env` packages the ambient world the Python code consults: the filesystem
(mtimes, existence, file reads), the clock (`int(time.time())`), pandoc's
success or failure, the environment variable read by
`parse_env_pandoc_flags` after `load_dotenv`, and the immutable parts of
`config`.  `ServerState` is the mutable global state of `src/main.py`. -/

structure Env where
  /-- Value of `config["notes_dir"]` (absolute after startup). -/
  notesDir : String
  /-- Value of `config["temp_dir"]`. -/
  tempDir : String
  /-- Value of `config["default_extensions"]`. -/
  defaultExtensions : List String
  /-- Value of `config["css_file"]`. -/
  cssFile : Option String
  /-- Oracle for `os.path.getmtime`. -/
  fsMtime : String → Nat
  /-- Oracle for `os.path.exists`. -/
  fsExists : String → Bool
  /-- Oracle for `os.path.isfile`. -/
  isFile : String → Bool
  /-- Reading a file's text; `none` models an `open`/`read` exception. -/
  readFile : String → Option String
  /-- Whether `subprocess.run(["pandoc", ...], check=True)` succeeds for a
  given source path. -/
  pandocOk : String → Bool
  /-- Clock reading `int(time.time())` at the moment an output path is generated. -/
  time : Nat
  /-- Value of `os.environ.get("PANDOC_FLAGS")` as seen after `load_dotenv`. -/
  envPandocFlags : Option String

/-- The mutable globals of `src/main.py`: `html_cache`, `modified_files`,
`css_content` and `config["pandoc_flags"]`. -/
structure ServerState where
  /-- The `html_cache` dict: `md_path -> (html_path, mod_time)`. -/
  htmlCache : List (String × String × Nat)
  /-- The `modified_files` set of abspaths. -/
  modifiedFiles : List String
  /-- The `css_content` global. -/
  cssContent : Option String
  /-- The mutable `config["pandoc_flags"]` entry. -/
  pandocFlags : List String
deriving DecidableEq

/-! ### `shlex.split` (POSIX mode), used by `parse_env_pandoc_flags` -/

def chQuote : Char := Char.ofNat 39
def chDQuote : Char := Char.ofNat 34
def chBackslash : Char := Char.ofNat 92

def isShlexWS (c : Char) : Bool :=
  c = Char.ofNat 32 || c = Char.ofNat 9 || c = Char.ofNat 13 || c = Char.ofNat 10

/-- Lexer mode of `shlex` in POSIX mode: outside quotes, inside single
quotes, inside double quotes, and the two backslash-escape states. -/
inductive ShMode
  | norm
  | single
  | double
  | escNorm
  | escDouble

/-- The scanning loop of `shlex.split` (POSIX rules): whitespace separates
tokens; single quotes are fully literal; inside double quotes a backslash
escapes only `"` and `\`; outside quotes a backslash escapes the next
character.  An unterminated quote raises `No closing quotation`; a
trailing backslash raises `No escaped character`. -/
def shlexAux : List Char → ShMode → Option (List Char) → Except String (List String)
  | [], .norm, cur =>
    .ok (match cur with | none => [] | some t => [⟨t⟩])
  | [], .single, _ => .error "No closing quotation"
  | [], .double, _ => .error "No closing quotation"
  | [], .escNorm, _ => .error "No escaped character"
  | [], .escDouble, _ => .error "No escaped character"
  | c :: rest, .norm, cur =>
    if isShlexWS c then
      match cur with
      | none => shlexAux rest .norm none
      | some t => (shlexAux rest .norm none).map (fun ts => ⟨t⟩ :: ts)
    else if c = chQuote then shlexAux rest .single (some (cur.getD []))
    else if c = chDQuote then shlexAux rest .double (some (cur.getD []))
    else if c = chBackslash then shlexAux rest .escNorm (some (cur.getD []))
    else shlexAux rest .norm (some (cur.getD [] ++ [c]))
  | c :: rest, .single, cur =>
    if c = chQuote then shlexAux rest .norm cur
    else shlexAux rest .single (some (cur.getD [] ++ [c]))
  | c :: rest, .double, cur =>
    if c = chDQuote then shlexAux rest .norm cur
    else if c = chBackslash then shlexAux rest .escDouble cur
    else shlexAux rest .double (some (cur.getD [] ++ [c]))
  | c :: rest, .escNorm, cur => shlexAux rest .norm (some (cur.getD [] ++ [c]))
  | c :: rest, .escDouble, cur =>
    if c = chDQuote || c = chBackslash then
      shlexAux rest .double (some (cur.getD [] ++ [c]))
    else
      shlexAux rest .double (some (cur.getD [] ++ [chBackslash, c]))

/-- Model of `shlex.split(s)`; `.error` models the `ValueError` it raises. -/
def shlexSplit (s : String) : Except String (List String) :=
  shlexAux s.data .norm none

/-! ### Operations translated from `src/main.py` -/

/-- The test `any(file_path.endswith(ext) for ext in config["default_extensions"])`. -/
def extMatch (env : Env) (p : String) : Bool :=
  env.defaultExtensions.any (fun e => strEndsWith p e)

/-- The guard `config["css_file"] and os.path.abspath(file_path) ==
os.path.abspath(config["css_file"])` of the css branch of `on_modified`. -/
def cssMatch (env : Env) (p : String) : Bool :=
  match env.cssFile with
  | none => false
  | some cf => abspath p = abspath cf

/-- Translation of `load_css_content` (src/main.py lines 107-119): reads the configured
css file into `css_content`; on a read exception, or when the file is
missing, `css_content` is set to `None`. -/
def load_css_content (env : Env) (σ : ServerState) : ServerState :=
  match env.cssFile with
  | some cf =>
    if env.isFile cf then
      match env.readFile cf with
      | some s => { σ with cssContent := some s }
      | none => { σ with cssContent := none }
    else { σ with cssContent := none }
  | none => { σ with cssContent := none }

/-- Translation of `parse_env_pandoc_flags` (lines 722-730): returns the current flags
when `PANDOC_FLAGS` is unset or empty, else `shlex.split` of its value
(`.error` = the uncaught `ValueError` from `shlex.split`). -/
def parse_env_pandoc_flags (env : Env) (σ : ServerState) : Except String (List String) :=
  match env.envPandocFlags with
  | none => .ok σ.pandocFlags
  | some s => if s.data.isEmpty then .ok σ.pandocFlags else shlexSplit s

/-- Translation of `MarkdownFileHandler.on_modified` (lines 60-88) for a file event.
Three sequential blocks: document-extension match (mark dirty under
`os.path.abspath`, delete the cache entry under the raw event path);
css-file match (reload css, then clear the whole cache unconditionally);
`.env` basename match (reparse flags, then clear the whole cache — an
exception from `parse_env_pandoc_flags` aborts before either mutation). -/
def on_modified (env : Env) (σ : ServerState) (filePath : String) : ServerState :=
  let σ1 :=
    if extMatch env filePath then
      let σa := { σ with modifiedFiles := setAdd (abspath filePath) σ.modifiedFiles }
      if (dictGet filePath σa.htmlCache).isSome then
        { σa with htmlCache := dictDel filePath σa.htmlCache }
      else σa
    else σ
  let σ2 :=
    if cssMatch env filePath then
      { load_css_content env σ1 with htmlCache := [] }
    else σ1
  if basename filePath = ".env" then
    match parse_env_pandoc_flags env σ2 with
    | .ok fl => { σ2 with pandocFlags := fl, htmlCache := [] }
    | .error _ => σ2
  else σ2

/-- Translation of `MarkdownFileHandler.on_deleted` (lines 96-104) for a file event:
delete the cache entry under the raw event path when the extension matches;
`modified_files` is never touched. -/
def on_deleted (env : Env) (σ : ServerState) (filePath : String) : ServerState :=
  if extMatch env filePath then
    if (dictGet filePath σ.htmlCache).isSome then
      { σ with htmlCache := dictDel filePath σ.htmlCache }
    else σ
  else σ

/-- The outcome of `convert_md_to_html`: a cache hit (no pandoc run), a
fresh render, or a conversion failure (`return None`). -/
inductive RenderOutcome
  | cachedHit (path : String)
  | rendered (path : String)
  | failed
deriving DecidableEq

/-- The value `convert_md_to_html` returns to its caller. -/
def resultPath : RenderOutcome → Option String
  | .cachedHit p => some p
  | .rendered p => some p
  | .failed => none

/-- The output path generated on a cache miss (line 264):
`os.path.join(config["temp_dir"], f"{os.path.basename(md_path)}_{int(time.time())}.html")`. -/
def outputPath (env : Env) (md : String) : String :=
  env.tempDir ++ "/" ++ basename md ++ "_" ++ toString env.time ++ ".html"

/-- The miss path of `convert_md_to_html` (lines 263-290): generate the
output path, run pandoc; on success store the cache entry keyed by the raw
`md_path` with the source's current mtime and discard `abspath md` from
`modified_files`; on `CalledProcessError` return `None` with no state
change. -/
def render_fresh (env : Env) (σ : ServerState) (md : String) : RenderOutcome × ServerState :=
  let html := outputPath env md
  if env.pandocOk md then
    let σ1 := { σ with htmlCache := dictSet md (html, env.fsMtime md) σ.htmlCache }
    let ap := abspath md
    let σ2 :=
      if setContains ap σ1.modifiedFiles then
        { σ1 with modifiedFiles := setRemove ap σ1.modifiedFiles }
      else σ1
    (.rendered html, σ2)
  else (.failed, σ)

/-- Translation of `convert_md_to_html` (lines 251-290): serve the cached artifact when
the entry's recorded mtime is still current and the artifact file exists;
otherwise fall through to a fresh conversion. -/
def convert_md_to_html (env : Env) (σ : ServerState) (md : String) :
    RenderOutcome × ServerState :=
  match dictGet md σ.htmlCache with
  | some (html, mt) =>
    if env.fsMtime md ≤ mt ∧ env.fsExists html = true then
      (.cachedHit html, σ)
    else render_fresh env σ md
  | none => render_fresh env σ md

/-- The note-serving branch of `serve_note` (lines 709-719): a `None` from
`convert_md_to_html` becomes `abort(500)`, otherwise the artifact is sent
(status 200). -/
def serve_note (env : Env) (σ : ServerState) (md : String) : Nat × ServerState :=
  let r := convert_md_to_html env σ md
  match resultPath r.1 with
  | none => (500, r.2)
  | some _ => (200, r.2)

/-- Translation of `check_modified` (lines 681-688): membership of
`os.path.abspath(os.path.join(notes_dir, path))` in `modified_files`. -/
def check_modified (env : Env) (σ : ServerState) (relPath : String) : Bool :=
  setContains (abspath (pathJoin env.notesDir relPath)) σ.modifiedFiles

/-- The dirty flag of an identity, as every reader and writer of
`modified_files` keys it: membership of the identity's `os.path.abspath`. -/
def is_dirty (σ : ServerState) (I : String) : Bool :=
  setContains (abspath I) σ.modifiedFiles

/-! ### The pure injection transform of `inject_css_and_refresh`
(lines 188-248), as a function of `(content, style, script)`. -/

def bodyClose : String := "</body>"
def headClose : String := "</head>"

/-- The `<style>` block built around the css content (line 228). -/
def cssStyleBlock (css : String) : String := "<style>\n" ++ css ++ "\n</style>"

/-- The css stage (lines 227-235): when css content is present (Python
truthiness: non-`None` and non-empty), insert the style block before
`</head>` when that marker occurs, else prepend it (with a newline). -/
def injectStyle (content : String) (css : Option String) : String :=
  match css with
  | none => content
  | some c =>
    if c.data.isEmpty then content
    else
      let style := cssStyleBlock c
      if pyContains content headClose then
        pyReplace content headClose (style ++ headClose)
      else style ++ "\n" ++ content

/-- The refresh-script stage (lines 237-242): insert the script before
`</body>` when that marker occurs, else append it. -/
def injectRefresh (content : String) (script : String) : String :=
  if pyContains content bodyClose then
    pyReplace content bodyClose (script ++ bodyClose)
  else content ++ script

/-- The full content transformation performed by `inject_css_and_refresh`:
css stage first, then the refresh-script stage on the result. -/
def inject_content (content : String) (css : Option String) (script : String) : String :=
  injectRefresh (injectStyle content css) script

/-! ### Helper lemmas -/

theorem dictGet_dictDel_self {α : Type} (k : String) (d : List (String × α)) :
    dictGet k (dictDel k d) = none := by
  induction d with
  | nil => rfl
  | cons a d ih =>
    obtain ⟨k', v⟩ := a
    rw [dictDel]
    by_cases h : k' = k
    · rw [if_pos h]; exact ih
    · rw [if_neg h, dictGet, if_neg h]; exact ih

theorem dictGet_dictDel_ne {α : Type} (k q : String) (hq : q ≠ k)
    (d : List (String × α)) : dictGet q (dictDel k d) = dictGet q d := by
  induction d with
  | nil => rfl
  | cons a d ih =>
    obtain ⟨k', v⟩ := a
    rw [dictDel]
    by_cases h : k' = k
    · rw [if_pos h, dictGet, if_neg (by rw [h]; exact fun e => hq e.symm)]
      exact ih
    · rw [if_neg h, dictGet, dictGet]
      by_cases h2 : k' = q
      · rw [if_pos h2, if_pos h2]
      · rw [if_neg h2, if_neg h2]; exact ih

theorem setContains_setRemove_self (x : String) (l : List String) :
    setContains x (setRemove x l) = false := by
  induction l with
  | nil => rfl
  | cons a t ih =>
    rw [setRemove]
    by_cases h : a = x
    · rw [if_pos h]; exact ih
    · rw [if_neg h, setContains, if_neg h]; exact ih

theorem setContains_append_self (x : String) (l : List String) :
    setContains x (l ++ [x]) = true := by
  induction l with
  | nil => simp [setContains]
  | cons a t ih =>
    rw [List.cons_append, setContains]
    by_cases h : a = x
    · rw [if_pos h]
    · rw [if_neg h]; exact ih

theorem setContains_setAdd_self (x : String) (l : List String) :
    setContains x (setAdd x l) = true := by
  rw [setAdd]
  by_cases h : setContains x l = true
  · rw [if_pos h]; exact h
  · rw [if_neg h]; exact setContains_append_self x l

theorem listStartsWith_append_self (x y : List Char) :
    listStartsWith (x ++ y) x = true := by
  induction x with
  | nil => cases y <;> rfl
  | cons a t ih => rw [List.cons_append, listStartsWith]; simp [ih]

theorem listOccurs_append_mid (pat a b : List Char) (hp : pat ≠ []) :
    listOccurs (a ++ pat ++ b) pat = true := by
  induction a with
  | nil =>
    obtain ⟨p, pt, rfl⟩ : ∃ p pt, pat = p :: pt := by
      cases pat with
      | nil => exact absurd rfl hp
      | cons p pt => exact ⟨p, pt, rfl⟩
    rw [List.nil_append, List.cons_append, listOccurs]
    have h := listStartsWith_append_self (p :: pt) b
    rw [List.cons_append] at h
    simp [h]
  | cons c a' ih =>
    rw [List.cons_append, List.cons_append, listOccurs]
    have ih' : listOccurs (a' ++ (pat ++ b)) pat = true := by
      rwa [← List.append_assoc]
    simp [ih']

theorem listReplace_nil (pat rep : List Char) : listReplace [] pat rep = [] := by
  rw [listReplace.eq_def]

theorem listReplace_cons_pos (a : Char) (t pat rep : List Char)
    (h : listStartsWith (a :: t) pat = true) :
    listReplace (a :: t) pat rep
      = rep ++ listReplace (List.drop (pat.length - 1) t) pat rep := by
  rw [listReplace.eq_def]
  simp [h]

theorem listReplace_cons_neg (a : Char) (t pat rep : List Char)
    (h : listStartsWith (a :: t) pat = false) :
    listReplace (a :: t) pat rep = a :: listReplace t pat rep := by
  rw [listReplace.eq_def]
  simp [h]

theorem listReplace_of_not_occurs (s pat rep : List Char)
    (h : listOccurs s pat = false) : listReplace s pat rep = s := by
  induction s with
  | nil => exact listReplace_nil pat rep
  | cons a t ih =>
    rw [listOccurs] at h
    rw [Bool.or_eq_false_iff] at h
    rw [listReplace_cons_neg a t pat rep h.1, ih h.2]

theorem listReplace_single_occ (pat rep pre post : List Char) (hp : pat ≠ [])
    (h1 : ∀ i, i < pre.length →
      listStartsWith ((pre ++ pat ++ post).drop i) pat = false)
    (h2 : listOccurs post pat = false) :
    listReplace (pre ++ pat ++ post) pat rep = pre ++ rep ++ post := by
  induction pre with
  | nil =>
    obtain ⟨p, pt, rfl⟩ : ∃ p pt, pat = p :: pt := by
      cases pat with
      | nil => exact absurd rfl hp
      | cons p pt => exact ⟨p, pt, rfl⟩
    rw [List.nil_append, List.nil_append, List.cons_append]
    have hs : listStartsWith (p :: (pt ++ post)) (p :: pt) = true := by
      have h := listStartsWith_append_self (p :: pt) post
      rwa [List.cons_append] at h
    rw [listReplace_cons_pos p (pt ++ post) (p :: pt) rep hs]
    have hd : List.length (p :: pt) - 1 = pt.length := by simp
    rw [hd, List.drop_left, listReplace_of_not_occurs _ _ _ h2]
  | cons a pre' ih =>
    have h0 := h1 0 (by simp)
    rw [List.drop_zero, List.cons_append, List.cons_append] at h0
    have h1' : ∀ i, i < pre'.length →
        listStartsWith ((pre' ++ pat ++ post).drop i) pat = false := by
      intro i hi
      have h := h1 (i + 1) (by simpa using Nat.succ_lt_succ hi)
      rwa [List.cons_append, List.cons_append, List.drop_succ_cons] at h
    rw [List.cons_append, List.cons_append,
      listReplace_cons_neg a (pre' ++ pat ++ post) pat rep h0, ih h1']
    simp

theorem str_data_append (s t : String) : (s ++ t).data = s.data ++ t.data := by
  cases s
  cases t
  rfl

theorem string_mk_eq_of_data (a : List Char) (s : String) (h : a = s.data) :
    (⟨a⟩ : String) = s := by
  cases s
  exact congrArg String.mk h

/-- The first component of the miss path is never a `cachedHit`. -/
theorem render_fresh_fst_ne_hit (env : Env) (σ : ServerState) (md p : String) :
    (render_fresh env σ md).1 ≠ RenderOutcome.cachedHit p := by
  rw [render_fresh]
  by_cases h : env.pandocOk md = true
  · rw [if_pos h]; simp
  · rw [if_neg h]; simp

/-- On a successful fresh render, the rendered identity's dirty flag is
false in the resulting state. -/
theorem render_fresh_clears_dirty (env : Env) (σ σ' : ServerState) (md html : String)
    (h : render_fresh env σ md = (.rendered html, σ')) :
    is_dirty σ' md = false := by
  rw [render_fresh] at h
  by_cases hp : env.pandocOk md = true
  · rw [if_pos hp] at h
    have hσ := congrArg Prod.snd h
    simp only at hσ
    by_cases hc : setContains (abspath md)
        ({ σ with htmlCache := dictSet md (outputPath env md, env.fsMtime md) σ.htmlCache }
          : ServerState).modifiedFiles = true
    · rw [if_pos hc] at hσ
      rw [is_dirty, ← hσ]
      exact setContains_setRemove_self _ _
    · rw [if_neg hc] at hσ
      rw [is_dirty, ← hσ]
      simpa using hc
  · rw [if_neg hp] at h
    exact absurd (congrArg Prod.fst h) (by simp)

/-! ### Concrete fixtures used by witnesses and counterexamples -/

/-- The default `config["default_extensions"]`. -/
def extsD : List String := [".md", ".markdown", ".txt"]

/-- A base environment: pandoc succeeds, clock reads 1000. -/
def envT : Env :=
  { notesDir := "/n", tempDir := "/tmp", defaultExtensions := extsD,
    cssFile := none, fsMtime := fun _ => 0, fsExists := fun _ => true,
    isFile := fun _ => false, readFile := fun _ => none,
    pandocOk := fun _ => true, time := 1000, envPandocFlags := none }

/-- An environment in which the cached artifact for `/n/a.md` is valid:
the source mtime is still 100 and `/tmp/a.html` exists. -/
def envHit : Env :=
  { envT with fsMtime := fun _ => 100,
              fsExists := fun p => decide (p = "/tmp/a.html") }

/-- A state holding a cache entry `(/tmp/a.html, 100)` for `/n/a.md` that
is simultaneously flagged dirty. -/
def σHit : ServerState :=
  { htmlCache := [("/n/a.md", ("/tmp/a.html", 100))],
    modifiedFiles := ["/n/a.md"], cssContent := none, pandocFlags := [] }

/-- An environment in which pandoc fails. -/
def envFail : Env := { envT with pandocOk := fun _ => false }

/-- An empty-cache state in which `/n/c.md` is flagged dirty. -/
def σFail : ServerState :=
  { htmlCache := [], modifiedFiles := ["/n/c.md"], cssContent := none,
    pandocFlags := [] }

/-- An empty-cache state in which `/n/a.md` is flagged dirty. -/
def σD : ServerState :=
  { htmlCache := [], modifiedFiles := ["/n/a.md"], cssContent := none,
    pandocFlags := [] }

/-! ### C1 -/

/-- C1 (cache validity invariant): when the cache holds the entry `(A, T)`
for identity `I`, `convert_md_to_html` serves the cached artifact path `A`
without re-rendering if and only if the artifact `A` still exists on disk
and the source's current mtime is at most `T`; when either condition
fails, it falls through to the re-render path. -/
theorem cache_validity_invariant (env : Env) (σ : ServerState) (I A : String) (T : Nat)
    (h : dictGet I σ.htmlCache = some (A, T)) :
    (convert_md_to_html env σ I = (.cachedHit A, σ)
      ↔ (env.fsMtime I ≤ T ∧ env.fsExists A = true))
    ∧ (¬(env.fsMtime I ≤ T ∧ env.fsExists A = true) →
        convert_md_to_html env σ I = render_fresh env σ I) := by
  by_cases hcnd : env.fsMtime I ≤ T ∧ env.fsExists A = true
  · have hconv : convert_md_to_html env σ I = (.cachedHit A, σ) := by
      simp only [convert_md_to_html, h]
      rw [if_pos hcnd]
    exact ⟨⟨fun _ => hcnd, fun _ => hconv⟩, fun hn => absurd hcnd hn⟩
  · have hconv : convert_md_to_html env σ I = render_fresh env σ I := by
      simp only [convert_md_to_html, h]
      rw [if_neg hcnd]
    refine ⟨⟨fun hE => ?_, fun hc => absurd hc hcnd⟩, fun _ => hconv⟩
    rw [hconv] at hE
    exact absurd (congrArg Prod.fst hE) (render_fresh_fst_ne_hit env σ I A)

/-- Witness for C1 at the concrete valid-entry state `σHit`. -/
theorem cache_validity_invariant_witness :
    dictGet "/n/a.md" σHit.htmlCache = some ("/tmp/a.html", 100)
    ∧ ((convert_md_to_html envHit σHit "/n/a.md" = (.cachedHit "/tmp/a.html", σHit)
        ↔ (envHit.fsMtime "/n/a.md" ≤ 100 ∧ envHit.fsExists "/tmp/a.html" = true))
      ∧ (¬(envHit.fsMtime "/n/a.md" ≤ 100 ∧ envHit.fsExists "/tmp/a.html" = true) →
          convert_md_to_html envHit σHit "/n/a.md" = render_fresh envHit σHit "/n/a.md")) :=
  ⟨rfl, cache_validity_invariant envHit σHit "/n/a.md" "/tmp/a.html" 100 rfl⟩

/-! ### C2 -/

/-- C2 counterexample: at `σHit` the identity `/n/a.md` is dirty and its
cache entry is valid, so `convert_md_to_html` returns a non-`None`
artifact path (a successful call, in the claim's sense) yet the identity
is still dirty afterwards: a cache hit does not clear the dirty flag. -/
theorem nonNone_result_keeps_dirty_cex :
    (resultPath (convert_md_to_html envHit σHit "/n/a.md").1).isSome = true
    ∧ is_dirty (convert_md_to_html envHit σHit "/n/a.md").2 "/n/a.md" = true := by
  decide

/-- C2 (amended): a successful fresh conversion — `convert_md_to_html`
taking the cache-miss path with pandoc succeeding, i.e. returning a
`rendered` outcome — always leaves the identity's dirty flag false, even
if it was dirty beforehand; a valid cache hit also returns a non-`None`
path but leaves the dirty flag unchanged. -/
theorem fresh_render_clears_dirty (env : Env) (σ σ' : ServerState) (I html : String)
    (h : convert_md_to_html env σ I = (.rendered html, σ')) :
    is_dirty σ' I = false := by
  rw [convert_md_to_html] at h
  split at h
  next A mt heq =>
    split at h
    · exact absurd (congrArg Prod.fst h) (by simp)
    · exact render_fresh_clears_dirty env σ σ' I html h
  next heq => exact render_fresh_clears_dirty env σ σ' I html h

/-- Witness for the amended C2: rendering `/n/a.md` from the dirty state
`σD` leaves it clean. -/
theorem fresh_render_clears_dirty_witness :
    is_dirty (convert_md_to_html envT σD "/n/a.md").2 "/n/a.md" = false :=
  fresh_render_clears_dirty envT σD (convert_md_to_html envT σD "/n/a.md").2
    "/n/a.md" (outputPath envT "/n/a.md") (by decide)

/-! ### C5 -/

/-- C5 (conversion failure atomicity): when no valid cache entry lets
`convert_md_to_html` serve identity `I` from cache and the pandoc
invocation fails, the call returns `None` with the state unchanged — no
cache entry is created or replaced, the dirty flag of `I` is untouched —
and `serve_note` maps the failure to HTTP 500. -/
theorem conversion_failure_atomic (env : Env) (σ : ServerState) (I : String)
    (hmiss : ∀ A T, dictGet I σ.htmlCache = some (A, T) →
      ¬(env.fsMtime I ≤ T ∧ env.fsExists A = true))
    (hfail : env.pandocOk I = false) :
    convert_md_to_html env σ I = (.failed, σ)
    ∧ ((convert_md_to_html env σ I).2).htmlCache = σ.htmlCache
    ∧ is_dirty (convert_md_to_html env σ I).2 I = is_dirty σ I
    ∧ serve_note env σ I = (500, σ) := by
  have hrf : render_fresh env σ I = (.failed, σ) := by
    rw [render_fresh, if_neg (by simp [hfail])]
  have hconv : convert_md_to_html env σ I = (.failed, σ) := by
    rw [convert_md_to_html]
    cases hd : dictGet I σ.htmlCache with
    | none => exact hrf
    | some e =>
      obtain ⟨A, T⟩ := e
      show (if env.fsMtime I ≤ T ∧ env.fsExists A = true
        then ((RenderOutcome.cachedHit A, σ) : RenderOutcome × ServerState)
        else render_fresh env σ I) = (.failed, σ)
      rw [if_neg (hmiss A T hd)]
      exact hrf
  refine ⟨hconv, ?_, ?_, ?_⟩
  · rw [hconv]
  · rw [hconv]
  · rw [serve_note, hconv]
    rfl

/-- Witness for C5: a dirty, uncached `/n/c.md` with a failing pandoc. -/
theorem conversion_failure_atomic_witness :
    convert_md_to_html envFail σFail "/n/c.md" = (.failed, σFail)
    ∧ ((convert_md_to_html envFail σFail "/n/c.md").2).htmlCache = σFail.htmlCache
    ∧ is_dirty (convert_md_to_html envFail σFail "/n/c.md").2 "/n/c.md"
        = is_dirty σFail "/n/c.md"
    ∧ serve_note envFail σFail "/n/c.md" = (500, σFail) :=
  conversion_failure_atomic envFail σFail "/n/c.md"
    (fun _ _ h => Option.noConfusion h) rfl

/-! ### C10 -/

/-- C10 (cache hits mutate nothing): when the cache entry `(A, T)` for `I`
is valid — the artifact exists and the source mtime has not advanced —
`convert_md_to_html` returns the cached path with the state unchanged: the
dirty flag of `I` is untouched (a simultaneously dirty and cache-valid
identity stays dirty) and the cache entry is not rewritten. -/
theorem cache_hit_mutates_nothing (env : Env) (σ : ServerState) (I A : String) (T : Nat)
    (h : dictGet I σ.htmlCache = some (A, T))
    (hm : env.fsMtime I ≤ T) (he : env.fsExists A = true) :
    convert_md_to_html env σ I = (.cachedHit A, σ)
    ∧ (convert_md_to_html env σ I).2 = σ
    ∧ is_dirty (convert_md_to_html env σ I).2 I = is_dirty σ I
    ∧ dictGet I ((convert_md_to_html env σ I).2).htmlCache = some (A, T) := by
  have hconv : convert_md_to_html env σ I = (.cachedHit A, σ) := by
    simp only [convert_md_to_html, h]
    rw [if_pos ⟨hm, he⟩]
  refine ⟨hconv, ?_, ?_, ?_⟩
  · rw [hconv]
  · rw [hconv]
  · rw [hconv]
    exact h

/-- Witness for C10 at `σHit`, where `/n/a.md` is dirty and cache-valid. -/
theorem cache_hit_mutates_nothing_witness :
    (convert_md_to_html envHit σHit "/n/a.md" = (.cachedHit "/tmp/a.html", σHit)
      ∧ (convert_md_to_html envHit σHit "/n/a.md").2 = σHit
      ∧ is_dirty (convert_md_to_html envHit σHit "/n/a.md").2 "/n/a.md"
          = is_dirty σHit "/n/a.md"
      ∧ dictGet "/n/a.md" ((convert_md_to_html envHit σHit "/n/a.md").2).htmlCache
          = some ("/tmp/a.html", 100))
    ∧ is_dirty σHit "/n/a.md" = true :=
  ⟨cache_hit_mutates_nothing envHit σHit "/n/a.md" "/tmp/a.html" 100 rfl
    (by decide) (by decide), by decide⟩

/-! ### C3 -/

/-- An environment with a configured css file `/s.css` whose reload fails:
the file is reported present but reading it raises. -/
def envCss : Env :=
  { envT with cssFile := some "/s.css", isFile := fun _ => true,
              readFile := fun _ => none }

/-- A state holding a cache entry and previously loaded style content. -/
def σCss : ServerState :=
  { htmlCache := [("/n/a.md", ("/tmp/a.html", 1))], modifiedFiles := [],
    cssContent := some "old", pandocFlags := [] }

/-- C3 counterexample: a modification event for the configured style file
whose reload fails (unreadable file).  Contrary to the claim, the
previously loaded style content `some "old"` is NOT retained — it is
replaced by `none` — and the artifact cache IS cleared. -/
theorem style_reload_failure_destructive_cex :
    envCss.readFile "/s.css" = none
    ∧ (on_modified envCss σCss "/s.css").cssContent = none
    ∧ (on_modified envCss σCss "/s.css").cssContent ≠ some "old"
    ∧ (on_modified envCss σCss "/s.css").htmlCache = [] := by
  decide

/-- C3 (amended): on a modification event for the configured style file,
the artifact cache is cleared unconditionally — whether or not the style
reload succeeds — and a failing reload (unreadable file) does not retain
the previous in-memory style content but replaces it with `none`. -/
theorem style_event_clears_cache (env : Env) (σ : ServerState) (p cf : String)
    (hcf : env.cssFile = some cf) (hm : abspath p = abspath cf)
    (hext : extMatch env p = false) (henv : basename p ≠ ".env") :
    (on_modified env σ p).htmlCache = []
    ∧ (env.readFile cf = none → (on_modified env σ p).cssContent = none) := by
  have hcm : cssMatch env p = true := by
    simp only [cssMatch, hcf]
    simp [hm]
  have hres : on_modified env σ p = { load_css_content env σ with htmlCache := [] } := by
    simp [on_modified, hext, hcm, henv]
  refine ⟨by rw [hres], fun hrf => ?_⟩
  rw [hres]
  by_cases hif : env.isFile cf = true
  · simp [load_css_content, hcf, hif, hrf]
  · simp [load_css_content, hcf, hif]

/-- Witness for the amended C3 at the failing-reload fixture. -/
theorem style_event_clears_cache_witness :
    (on_modified envCss σCss "/s.css").htmlCache = []
    ∧ (envCss.readFile "/s.css" = none →
        (on_modified envCss σCss "/s.css").cssContent = none) :=
  style_event_clears_cache envCss σCss "/s.css" "/s.css" rfl rfl
    (by decide) (by decide)

/-! ### C6 -/

/-- A state holding a cache entry for `/n/a.md` stored by the coordinator. -/
def σK : ServerState :=
  { htmlCache := [("/n/a.md", ("/t/a.html", 1))], modifiedFiles := [],
    cssContent := none, pandocFlags := [] }

/-- C6 counterexample: the cache is keyed by raw path strings, not by a
canonical form.  The event path `/n/./a.md` and the stored key `/n/a.md`
denote the same physical file (equal `abspath`), yet a modification event
spelled `/n/./a.md` leaves the coordinator's cache entry for `/n/a.md`
in place (the detector's raw-key deletion misses it) even though the
dirty set does receive the canonical key. -/
theorem detector_invalidation_misses_cache_cex :
    ("/n/./a.md" : String) ≠ "/n/a.md"
    ∧ abspath "/n/./a.md" = abspath "/n/a.md"
    ∧ dictGet "/n/a.md" (on_modified envT σK "/n/./a.md").htmlCache
        = some ("/t/a.html", 1)
    ∧ is_dirty (on_modified envT σK "/n/./a.md") "/n/a.md" = true := by
  decide

/-- Dirty-set effect of a document-modification event: the inserted key is
the canonicalized `abspath` of the event path. -/
theorem on_modified_doc_dirty (env : Env) (σ : ServerState) (p : String)
    (hp : extMatch env p = true) (hc : cssMatch env p = false)
    (he : basename p ≠ ".env") :
    (on_modified env σ p).modifiedFiles = setAdd (abspath p) σ.modifiedFiles := by
  rw [on_modified]
  simp only [hp, hc, he, if_true, Bool.false_eq_true, if_false, ite_false]
  split
  · rfl
  · rfl

/-- C6 (amended): dirty-set keys are canonicalized — the detector inserts
`abspath(event path)`, so two differently spelled event paths for the same
physical file produce the same dirty set, and the notification endpoint
(which tests `abspath(join(notes_dir, request path))`) sees the flag for
any spelling of the same file.  (Artifact-cache keys, by contrast, are the
raw path strings: see the counterexample.) -/
theorem dirty_set_keys_canonicalized (env : Env) (σ : ServerState) (p q r : String)
    (hp : extMatch env p = true) (hq : extMatch env q = true)
    (hpq : abspath p = abspath q)
    (hcp : cssMatch env p = false) (hcq : cssMatch env q = false)
    (hep : basename p ≠ ".env") (heq : basename q ≠ ".env")
    (hr : abspath (pathJoin env.notesDir r) = abspath p) :
    (on_modified env σ p).modifiedFiles = (on_modified env σ q).modifiedFiles
    ∧ check_modified env (on_modified env σ p) r = true := by
  have e1 := on_modified_doc_dirty env σ p hp hcp hep
  have e2 := on_modified_doc_dirty env σ q hq hcq heq
  constructor
  · rw [e1, e2, hpq]
  · rw [check_modified, hr, e1]
    exact setContains_setAdd_self _ _

/-- Witness for the amended C6: the spellings `/n/./a.md` and `/n/a.md`
agree on the dirty set, and the endpoint sees the flag for `a.md`. -/
theorem dirty_set_keys_canonicalized_witness :
    (on_modified envT σK "/n/./a.md").modifiedFiles
      = (on_modified envT σK "/n/a.md").modifiedFiles
    ∧ check_modified envT (on_modified envT σK "/n/./a.md") "a.md" = true :=
  dirty_set_keys_canonicalized envT σK "/n/./a.md" "/n/a.md" "a.md"
    (by decide) (by decide) (by decide) (by decide) (by decide)
    (by decide) (by decide) (by decide)

/-! ### C7 -/

/-- An environment in which `PANDOC_FLAGS` holds an unbalanced quote, so
`shlex.split` raises `ValueError`. -/
def envEnv : Env := { envT with envPandocFlags := some "\"x" }

/-- A state with a populated cache and previously parsed flags. -/
def σEnv : ServerState :=
  { htmlCache := [("/n/a.md", ("/t/a.html", 1))], modifiedFiles := [],
    cssContent := none, pandocFlags := ["--old"] }

/-- C7 (settings reload failure is non-destructive): on a modification
event for a `.env` file, when `parse_env_pandoc_flags` raises (malformed
`PANDOC_FLAGS`), the exception aborts the handler before the flag update
and the cache clear, so the previous flags are retained and the cache is
NOT cleared; the global clear (with the new flags installed) happens
exactly on a successful reload. -/
theorem settings_reload_failure_nondestructive (env : Env) (σ : ServerState) (p : String)
    (hb : basename p = ".env")
    (hext : extMatch env p = false)
    (hcss : cssMatch env p = false) :
    (∀ e, parse_env_pandoc_flags env σ = .error e → on_modified env σ p = σ)
    ∧ (∀ fl, parse_env_pandoc_flags env σ = .ok fl →
        on_modified env σ p = { σ with pandocFlags := fl, htmlCache := [] }) := by
  constructor
  · intro e he
    simp [on_modified, hext, hcss, hb, he]
  · intro fl hfl
    simp [on_modified, hext, hcss, hb, hfl]

/-- Witness for C7: the unbalanced-quote fixture makes the parse raise,
and the handler leaves the state untouched. -/
theorem settings_reload_failure_witness :
    parse_env_pandoc_flags envEnv σEnv = .error "No closing quotation"
    ∧ on_modified envEnv σEnv "/w/.env" = σEnv :=
  ⟨rfl,
    (settings_reload_failure_nondestructive envEnv σEnv "/w/.env"
      (by decide) (by decide) (by decide)).1 "No closing quotation" rfl⟩

/-! ### C9 -/

/-- C9 (deletion frame effect): a deletion event for a document path `p`
(extension match) removes the cache entry keyed `p` if present, touches no
other cache entry, and leaves the dirty set — as well as the style content
and the converter flags — entirely unchanged. -/
theorem deletion_event_frame (env : Env) (σ : ServerState) (p : String)
    (hext : extMatch env p = true) :
    (on_deleted env σ p).modifiedFiles = σ.modifiedFiles
    ∧ dictGet p (on_deleted env σ p).htmlCache = none
    ∧ (∀ q, q ≠ p → dictGet q (on_deleted env σ p).htmlCache = dictGet q σ.htmlCache)
    ∧ (on_deleted env σ p).cssContent = σ.cssContent
    ∧ (on_deleted env σ p).pandocFlags = σ.pandocFlags := by
  by_cases hpresent : (dictGet p σ.htmlCache).isSome = true
  · have hres : on_deleted env σ p = { σ with htmlCache := dictDel p σ.htmlCache } := by
      rw [on_deleted]
      simp [hext, hpresent]
    rw [hres]
    exact ⟨rfl, dictGet_dictDel_self p _,
      fun q hq => dictGet_dictDel_ne p q hq _, rfl, rfl⟩
  · have hres : on_deleted env σ p = σ := by
      rw [on_deleted]
      simp [hext, hpresent]
    have hnone : dictGet p σ.htmlCache = none := by
      cases hdg : dictGet p σ.htmlCache with
      | none => rfl
      | some v => rw [hdg] at hpresent; simp at hpresent
    rw [hres]
    exact ⟨rfl, hnone, fun q _ => rfl, rfl, rfl⟩

/-- Witness for C9: deleting the cached `/n/a.md` from `σK`. -/
theorem deletion_event_frame_witness :
    (on_deleted envT σK "/n/a.md").modifiedFiles = σK.modifiedFiles
    ∧ dictGet "/n/a.md" (on_deleted envT σK "/n/a.md").htmlCache = none
    ∧ (∀ q, q ≠ "/n/a.md" →
        dictGet q (on_deleted envT σK "/n/a.md").htmlCache = dictGet q σK.htmlCache)
    ∧ (on_deleted envT σK "/n/a.md").cssContent = σK.cssContent
    ∧ (on_deleted envT σK "/n/a.md").pandocFlags = σK.pandocFlags :=
  deletion_event_frame envT σK "/n/a.md" (by decide)

/-! ### C4 -/

/-- C4 (code bug in the claimed uniqueness): the generated output location
is `temp_dir/basename_intSeconds.html`, a function only of the source's
basename and the whole-second clock reading.  Two distinct render
invocations within the same second — here for the two distinct sources
`/n/x/a.md` and `/n/y/a.md`, which share a basename — generate the very
same output path, so paths are not freshly unique per render. -/
theorem output_path_collision :
    ("/n/x/a.md" : String) ≠ "/n/y/a.md"
    ∧ outputPath envT "/n/x/a.md" = outputPath envT "/n/y/a.md"
    ∧ outputPath envT "/n/x/a.md" = "/tmp/a.md_1000.html" := by
  decide

/-! ### C8 -/

/-- C8 (injection fallback rules): the post-processing of
`inject_css_and_refresh` is the pure function `inject_content` of
`(content, style, script)`, equal to the css stage followed by the
refresh-script stage; the script stage appends the script when no
`</body>` marker occurs and inserts it immediately before the marker when
it occurs (stated for a unique occurrence, the well-formed-HTML case);
the style stage, when style content is present, prepends the style block
when no `</head>` marker occurs and inserts it immediately before the
marker when it occurs. -/
theorem injection_fallback_rules :
    (∀ content css script, inject_content content css script
        = injectRefresh (injectStyle content css) script)
    ∧ (∀ content script, pyContains content bodyClose = false →
        injectRefresh content script = content ++ script)
    ∧ (∀ pre post script,
        (∀ i, i < pre.data.length →
          listStartsWith (((pre ++ bodyClose ++ post) : String).data.drop i)
            bodyClose.data = false) →
        listOccurs post.data bodyClose.data = false →
        injectRefresh (pre ++ bodyClose ++ post) script
          = pre ++ script ++ bodyClose ++ post)
    ∧ (∀ content c, c.data.isEmpty = false → pyContains content headClose = false →
        injectStyle content (some c) = cssStyleBlock c ++ "\n" ++ content)
    ∧ (∀ pre post c, c.data.isEmpty = false →
        (∀ i, i < pre.data.length →
          listStartsWith (((pre ++ headClose ++ post) : String).data.drop i)
            headClose.data = false) →
        listOccurs post.data headClose.data = false →
        injectStyle (pre ++ headClose ++ post) (some c)
          = pre ++ cssStyleBlock c ++ headClose ++ post) := by
  refine ⟨fun _ _ _ => rfl, ?_, ?_, ?_, ?_⟩
  · intro content script hnc
    simp [injectRefresh, hnc]
  · intro pre post script h1 h2
    have h1' : ∀ i, i < pre.data.length →
        listStartsWith ((pre.data ++ bodyClose.data ++ post.data).drop i)
          bodyClose.data = false := by
      intro i hi
      have h := h1 i hi
      rwa [str_data_append, str_data_append] at h
    have hocc : pyContains (pre ++ bodyClose ++ post) bodyClose = true := by
      rw [pyContains, str_data_append, str_data_append]
      exact listOccurs_append_mid bodyClose.data pre.data post.data (by decide)
    rw [injectRefresh, if_pos hocc, pyReplace]
    apply string_mk_eq_of_data
    simp only [str_data_append]
    rw [listReplace_single_occ bodyClose.data (script.data ++ bodyClose.data)
      pre.data post.data (by decide) h1' h2]
    simp [List.append_assoc]
  · intro content c hce hnc
    simp [injectStyle, hce, hnc]
  · intro pre post c hce h1 h2
    have h1' : ∀ i, i < pre.data.length →
        listStartsWith ((pre.data ++ headClose.data ++ post.data).drop i)
          headClose.data = false := by
      intro i hi
      have h := h1 i hi
      rwa [str_data_append, str_data_append] at h
    have hocc : pyContains (pre ++ headClose ++ post) headClose = true := by
      rw [pyContains, str_data_append, str_data_append]
      exact listOccurs_append_mid headClose.data pre.data post.data (by decide)
    rw [injectStyle]
    simp only [hce, Bool.false_eq_true, if_false, ite_false]
    rw [if_pos hocc, pyReplace]
    apply string_mk_eq_of_data
    simp only [str_data_append]
    rw [listReplace_single_occ headClose.data ((cssStyleBlock c).data ++ headClose.data)
      pre.data post.data (by decide) h1' h2]
    simp [List.append_assoc]

/-- Witness for C8, exercising all four fallback rules at concrete
contents. -/
theorem injection_fallback_rules_witness :
    injectRefresh "<p>x" "SCRIPT" = "<p>x" ++ "SCRIPT"
    ∧ injectRefresh ("<p>a" ++ bodyClose ++ "tail") "SCRIPT"
        = "<p>a" ++ "SCRIPT" ++ bodyClose ++ "tail"
    ∧ injectStyle "<p>x" (some "CSS") = cssStyleBlock "CSS" ++ "\n" ++ "<p>x"
    ∧ injectStyle ("<x>" ++ headClose ++ "<y>") (some "CSS")
        = "<x>" ++ cssStyleBlock "CSS" ++ headClose ++ "<y>" :=
  ⟨injection_fallback_rules.2.1 "<p>x" "SCRIPT" (by decide),
   injection_fallback_rules.2.2.1 "<p>a" "tail" "SCRIPT" (by decide) (by decide),
   injection_fallback_rules.2.2.2.1 "<p>x" "CSS" (by decide) (by decide),
   injection_fallback_rules.2.2.2.2 "<x>" "<y>" "CSS" (by decide) (by decide) (by decide)⟩

end NoteGlance
